import Mathlib

/-!
Shallow embedding of the CyberdropBunkrDownloader pipeline
(src/main.py, src/modules/{utils,network,url_handler,downloader}.py).

Python-side effects are made explicit:
* functions that can raise an uncaught Python exception return `PyResult`;
* HTTP traffic is abstracted by oracle functions passed as parameters
  (one response per requested URL), so every network interaction in the
  source corresponds to one oracle application here;
* file-system writes (the downloaded file, the already_downloaded.txt
  ledger, the url_list.txt export list) are returned as explicit data.
-/

/-- Result of running a piece of Python code: either a value or an uncaught
exception carrying its message. -/
inductive PyResult (α : Type) where
  | val : α → PyResult α
  | exn : String → PyResult α
deriving Repr, DecidableEq

/-- True when the computation returned normally. -/
def PyResult.isVal {α : Type} : PyResult α → Bool
  | .val _ => true
  | .exn _ => false

/- ### Python string helpers used by the source -/

/-- ASCII whitespace stripped by Python str.strip; non-ASCII whitespace is
not modelled (no input in this development contains it). -/
def isPySpace (c : Char) : Bool :=
  c = ' ' || c = '\t' || c = '\n' || c = '\x0d' || c = '\x0b' || c = '\x0c'

/-- Python str.strip(): drop leading and trailing whitespace. -/
def pyStrip (s : String) : String :=
  String.mk (((s.data.dropWhile isPySpace).reverse.dropWhile isPySpace).reverse)

/-- Python str.lower() on the ASCII range (no input here is non-ASCII). -/
def pyLower (s : String) : String :=
  String.mk (s.data.map Char.toLower)

/-- First index at which pat occurs in the haystack, scanning left to right
(the index accumulator i names the position of the current suffix). -/
def findSubstrAux (pat : List Char) : List Char → Nat → Option Nat
  | [], i => if pat.isPrefixOf ([] : List Char) then some i else none
  | c :: rest, i =>
    if pat.isPrefixOf (c :: rest) then some i else findSubstrAux pat rest (i + 1)

/-- Python str.find: index of the first occurrence of pat in s, as an
Option instead of the -1 sentinel. -/
def strFind (s pat : String) : Option Nat :=
  findSubstrAux pat.data s.data 0

/-- Value of a nonempty digit string, scanned left to right. -/
def parseDigitsAux : List Char → Nat → Option Nat
  | [], acc => some acc
  | c :: rest, acc =>
    if c.isDigit then parseDigitsAux rest (acc * 10 + (c.toNat - 48)) else none

/-- Python int(s) on a header string: optional sign and digits after
stripping whitespace; anything else raises ValueError, which the caller in
download turns into -1.  (Underscore separators are not modelled.) -/
def pyParseInt (s : String) : Option Int :=
  match (pyStrip s).data with
  | [] => none
  | '+' :: rest =>
    if rest = [] then none else (parseDigitsAux rest 0).map (fun n => (n : Int))
  | '-' :: rest =>
    if rest = [] then none else (parseDigitsAux rest 0).map (fun n => -(n : Int))
  | l => (parseDigitsAux l 0).map (fun n => (n : Int))

/- ### utils.get_url_data: urlparse path, basename, splitext -/

/-- Characters allowed in a URL scheme after the leading letter. -/
def isSchemeChar (c : Char) : Bool :=
  c.isAlphanum || c = '+' || c = '-' || c = '.'

/-- Drop a leading scheme: prefix of scheme characters up to the first
colon, as urllib.parse does; returns the text after the colon, or the whole
string when no valid scheme is present. -/
def dropScheme (s : String) : String :=
  match strFind s ":" with
  | none => s
  | some i =>
    let pre := s.data.take i
    if 0 < i && (pre.headD ' ').isAlpha && pre.all isSchemeChar then
      String.mk (s.data.drop (i + 1))
    else s

/-- Split network location from the rest: when the input starts with two
slashes, the netloc runs up to the next one of the three delimiters. -/
def splitNetloc (s : String) : String × String :=
  if ("//".data).isPrefixOf s.data then
    let r := s.data.drop 2
    (String.mk (r.takeWhile (fun c => !(c = '/' || c = '?' || c = '#'))),
     String.mk (r.dropWhile (fun c => !(c = '/' || c = '?' || c = '#'))))
  else ("", s)

/-- The path component of urlparse(url): strip the fragment, the scheme and
the netloc, then stop at the query.  (Params splitting of ;-suffixes is not
modelled; no URL in this repository uses them.) -/
def urlparsePath (url : String) : String :=
  let noFrag := String.mk (url.data.takeWhile (fun c => c ≠ '#'))
  let rest := (splitNetloc (dropScheme noFrag)).2
  String.mk (rest.data.takeWhile (fun c => c ≠ '?'))

/-- The netloc component of urlparse(url). -/
def urlparseNetloc (url : String) : String :=
  let noFrag := String.mk (url.data.takeWhile (fun c => c ≠ '#'))
  (splitNetloc (dropScheme noFrag)).1

/-- urlparse(url).hostname: netloc after the last at sign, before the first
colon, lowercased.  (IPv6 bracket syntax is not modelled.) -/
def urlparseHostname (url : String) : String :=
  let netloc := (urlparseNetloc url).data
  let afterAt := (netloc.reverse.takeWhile (fun c => c ≠ '@')).reverse
  String.mk ((afterAt.takeWhile (fun c => c ≠ ':')).map Char.toLower)

/-- os.path.basename: everything after the last slash. -/
def pathBasename (p : String) : String :=
  String.mk ((p.data.reverse.takeWhile (fun c => c ≠ '/')).reverse)

/-- Index of the last occurrence of c in l, if any. -/
def rfindIdx (c : Char) : List Char → Option Nat
  | [] => none
  | a :: rest =>
    match rfindIdx c rest with
    | some i => some (i + 1)
    | none => if a = c then some (0 : Nat) else none

/-- os.path.splitext extension of a basename: the suffix from the last dot,
provided some character before that dot is not itself a dot (so names made
of leading dots only have no extension). -/
def splitextExt (name : String) : String :=
  match rfindIdx '.' name.data with
  | none => ""
  | some i =>
    if (name.data.take i).any (fun c => c ≠ '.') then
      String.mk (name.data.drop i)
    else ""

/-- Parsed URL record returned by utils.get_url_data. -/
structure UrlData where
  file_name : String
  extension : String
  hostname : String
deriving Repr, DecidableEq

/-- utils.get_url_data: basename of the parsed path, its splitext suffix,
and the hostname. -/
def get_url_data (url : String) : UrlData :=
  let file_name := pathBasename (urlparsePath url)
  { file_name := file_name
    extension := splitextExt file_name
    hostname := urlparseHostname url }

/- ### utils.remove_illegal_chars -/

/-- A character matched by the sanitization regex: one of the listed
punctuation characters or a control byte in 0x00..0x19 (the regex range is
octal 0 to octal 31). -/
def isIllegalChar (c : Char) : Bool :=
  c = '<' || c = '>' || c = ':' || c = '"' || c = '/' || c = '\\' ||
  c = '|' || c = '?' || c = '*' || c = '\x27' || c.toNat ≤ 0x19

/-- utils.remove_illegal_chars: every regex match (each match is a single
character) is replaced by a dash, then the result is stripped. -/
def remove_illegal_chars (s : String) : String :=
  pyStrip (String.mk (s.data.map (fun c => if isIllegalChar c then '-' else c)))

/- ### utils.get_cdn_file_url (the CDN probe) -/

/-- Outcome of one probing GET: a status code, or a requests-level network
exception. -/
inductive ProbeOutcome where
  | status : Nat → ProbeOutcome
  | netErr : String → ProbeOutcome
deriving Repr, DecidableEq

/-- The candidate URL built for one CDN host: host slash file name when a
file name is given, otherwise host slash the gallery-URL text after the
first occurrence of slash-d-slash, or nothing when that marker is absent. -/
def cdnCandidate (gallery_url : String) (file_name : Option String) (cdn : String) :
    Option String :=
  match file_name with
  | some fn => some ("https://" ++ cdn ++ "/" ++ fn)
  | none =>
    match strFind gallery_url "/d/" with
    | none => none
    | some pos => some ("https://" ++ cdn ++ "/" ++ String.mk (gallery_url.data.drop (pos + 3)))

/-- The host loop of utils.get_cdn_file_url.  Returns the resolved URL (if
any) together with the trace of candidate URLs actually requested, in
order. -/
def cdnLoop (probe : String → ProbeOutcome) (gallery_url : String)
    (file_name : Option String) : List String → Option String × List String
  | [] => (none, [])
  | cdn :: rest =>
    match cdnCandidate gallery_url file_name cdn with
    | none => (none, [])
    | some u =>
      match probe u with
      | .netErr _ =>
        let t := cdnLoop probe gallery_url file_name rest
        (t.1, u :: t.2)
      | .status code =>
        if code = 200 then (some u, [u])
        else if code = 404 then
          let t := cdnLoop probe gallery_url file_name rest
          (t.1, u :: t.2)
        else if code = 403 then (none, [u])
        else (none, [u])

/-- utils.get_cdn_file_url: an absent or empty host list yields nothing
before any request; otherwise the host loop runs. -/
def get_cdn_file_url (probe : String → ProbeOutcome) (cdn_list : Option (List String))
    (gallery_url : String) (file_name : Option String) : Option String × List String :=
  match cdn_list with
  | none => (none, [])
  | some l => if l = [] then (none, []) else cdnLoop probe gallery_url file_name l

/- ### network.get_cdn_list -/

/-- network.get_cdn_list.  The input is the fetched status page abstracted
to the text of each p.flex-1 element in order (none models a non-200
fetch).  The source iterates over the tail of that list with indices
starting at 1 and keeps only entries with index above 4, lowercasing the
text and appending the fixed domain suffix. -/
def get_cdn_list (page : Option (List String)) : Option (List String) :=
  match page with
  | none => none
  | some cdn_elements =>
    some ((List.enumFrom 1 (cdn_elements.drop 1)).filterMap
      (fun p => if p.1 > 4 then some (pyLower p.2 ++ ".bunkr.ru") else none))

/- ### url_handler.py -/

/-- A resolver result dictionary: url, size (the source always uses -1, no
size hint) and an optional name. -/
structure ResolvedItem where
  url : String
  size : Int := -1
  name : Option String := none
deriving Repr, DecidableEq

/-- A fetched bunkr page abstracted to the queries the resolver makes: the
src attribute of the first matching element of each probed kind (none when
the element is absent or lacks the attribute), and whether a truncate-class
h1 heading exists.  Priority between the kinds is fixed by the resolver
itself, so this abstraction is independent of DOM order. -/
structure BunkrPage where
  source_src : Option String
  media_player_src : Option String
  styled_img_src : Option String
  has_truncate_h1 : Bool
deriving Repr, DecidableEq

/-- Outcome of session.get for a bunkr page: status and parsed page, or a
raised requests exception. -/
inductive PageFetch where
  | resp : Nat → BunkrPage → PageFetch
  | raises : String → PageFetch
deriving Repr, DecidableEq

/-- Python truthiness of element.get(attr): an absent attribute and an
empty string are both falsy. -/
def truthyAttr : Option String → Option String
  | none => none
  | some s => if s = "" then none else some s

/-- The URL normalization at the top of BunkrURLHandler.get_real_download_url. -/
def normalizeBunkrUrl (url : String) : String :=
  if url.startsWith "https" then url else "https://bunkr.sk" ++ url

/-- BunkrURLHandler.get_real_download_url: normalize the URL, fetch it,
then try source src, media-player src, styled img src in that fixed order;
if none is truthy but a truncate h1 exists, fall back to the CDN probe on
the page URL; otherwise resolve to nothing. -/
def bunkr_get_real_download_url (fetch : String → PageFetch)
    (probe : String → ProbeOutcome) (cdn_list : Option (List String))
    (url : String) : PyResult (Option ResolvedItem) :=
  let nurl := normalizeBunkrUrl url
  match fetch nurl with
  | .raises e => .exn e
  | .resp code page =>
    if code ≠ 200 then .val none
    else
      match truthyAttr page.source_src with
      | some s => .val (some { url := s, size := -1 })
      | none =>
        match truthyAttr page.media_player_src with
        | some s => .val (some { url := s, size := -1 })
        | none =>
          match truthyAttr page.styled_img_src with
          | some s => .val (some { url := s, size := -1 })
          | none =>
            if page.has_truncate_h1 then
              match (get_cdn_file_url probe cdn_list nurl none).1 with
              | some r => .val (some { url := r, size := -1 })
              | none => .val none
            else .val none

/-- Body of a cyberdrop API response: a flat JSON object with string
fields (enough for the url and name fields the source reads), or content
that fails to parse as JSON. -/
inductive JsonBody where
  | obj : List (String × String) → JsonBody
  | invalid : JsonBody
deriving Repr, DecidableEq

/-- Outcome of session.get for the cyberdrop API endpoint. -/
inductive ApiFetch where
  | resp : Nat → JsonBody → ApiFetch
  | raises : String → ApiFetch
deriving Repr, DecidableEq

/-- CyberdropURLHandler.get_real_download_url: rewrite the path to the API
endpoint and fetch it.  A non-200 status or malformed JSON resolves to
nothing; but well-formed JSON without a url field raises KeyError, which no
handler in the source catches. -/
def cyberdrop_get_real_download_url (fetch : String → ApiFetch) (url : String) :
    PyResult (Option ResolvedItem) :=
  let api_url := url.replace "/f/" "/api/f/"
  match fetch api_url with
  | .raises e => .exn e
  | .resp code body =>
    if code ≠ 200 then .val none
    else
      match body with
      | .invalid => .val none
      | .obj fields =>
        match fields.lookup "url" with
        | none => .exn "KeyError: url"
        | some u => .val (some { url := u, size := -1, name := fields.lookup "name" })

/- ### downloader.download -/

/-- One HTTP response for a file download: final URL after redirects,
status, the raw content-length header if present, and the sizes of the
streamed body chunks. -/
structure DlResponse where
  status : Nat
  final_url : String
  content_length : Option String
  body_chunks : List Nat
deriving Repr, DecidableEq

/-- int(response.headers.get("content-length", -1)) with ValueError and
TypeError mapped to -1, as in the source. -/
def headerFileSize (h : Option String) : Int :=
  match h with
  | none => -1
  | some s => (pyParseInt s).getD (-1)

/-- The number of bytes streamed to disk: open(final_path, wb) truncates,
so the on-disk size after the write is the sum of the chunk sizes. -/
def bodyWritten (resp : DlResponse) : Nat :=
  resp.body_chunks.foldl (fun a b => a + b) 0

/-- What one call of downloader.download did to the file system: the byte
size of the file left on disk (none when the function returned before
opening it), the URLs appended to the ledger, and the warnings printed. -/
structure DlEffect where
  wroteFile : Option Nat := none
  ledgerAppends : List String := []
  logs : List String := []
deriving Repr, DecidableEq

/-- downloader.download: abort without touching the disk on a non-200
status or the fixed maintenance redirect; otherwise stream all chunks to
the file; for bunkr downloads with a positive declared content length a
size mismatch logs a corruption warning and skips the ledger; every other
completed write appends the item URL (never the file name) to the ledger. -/
def download (resp : DlResponse) (item_url : String) (is_bunkr : Bool)
    (file_name : Option String) : DlEffect :=
  let fname := file_name.getD (get_url_data item_url).file_name
  if resp.status ≠ 200 then
    { logs := ["Error " ++ toString resp.status ++ " downloading " ++ fname] }
  else if resp.final_url = "https://bnkr.b-cdn.net/maintenance.mp4" then
    { logs := ["Server maintenance detected for " ++ fname] }
  else
    let file_size := headerFileSize resp.content_length
    let written : Nat := bodyWritten resp
    if is_bunkr && file_size > 0 then
      if (written : Int) ≠ file_size then
        { wroteFile := some written
          logs := ["File size mismatch for " ++ fname ++ "; the file may be corrupted."] }
      else { wroteFile := some written, ledgerAppends := [item_url] }
    else { wroteFile := some written, ledgerAppends := [item_url] }

/- ### downloader.download_with_retries -/

/-- Outcome of one call of download inside the retry loop: a normal return
with its effect, a requests.RequestException, or any other exception. -/
inductive AttemptOutcome where
  | ret : DlEffect → AttemptOutcome
  | requestExn : String → AttemptOutcome
  | otherExn : String → AttemptOutcome
deriving Repr, DecidableEq

/-- Observable behaviour of one run of download_with_retries: how many
attempts were made, the backoff sleeps in order (each entry is the slept
duration, always 2), the ledger appends, and which failure messages were
printed. -/
structure RetryTrace where
  attemptsMade : Nat
  backoffs : List Nat
  ledger : List String
  finalFailureLogged : Bool
  unexpectedLogged : Bool
deriving Repr, DecidableEq

/-- Python range(1, retries + 1) as a list of attempt numbers. -/
def pyRange1 (retries : Int) : List Nat :=
  List.range' 1 retries.toNat

/-- The attempt loop of download_with_retries over the remaining attempt
numbers: a normal return of download breaks the loop; a RequestException
sleeps 2 when further attempts remain and logs the final failure otherwise;
any other exception logs and breaks. -/
def retryGo (attempt : Nat → AttemptOutcome) (retries : Int) :
    List Nat → RetryTrace
  | [] => ⟨0, [], [], false, false⟩
  | k :: rest =>
    match attempt k with
    | .ret eff => ⟨1, [], eff.ledgerAppends, false, false⟩
    | .requestExn _ =>
      if (k : Int) < retries then
        let t := retryGo attempt retries rest
        ⟨t.attemptsMade + 1, 2 :: t.backoffs, t.ledger,
         t.finalFailureLogged, t.unexpectedLogged⟩
      else
        let t := retryGo attempt retries rest
        ⟨t.attemptsMade + 1, t.backoffs, t.ledger, true, t.unexpectedLogged⟩
    | .otherExn _ => ⟨1, [], [], false, true⟩

/-- downloader.download_with_retries, with the per-attempt behaviour of
download abstracted as an oracle indexed by the attempt number. -/
def download_with_retries (attempt : Nat → AttemptOutcome) (retries : Int) :
    RetryTrace :=
  retryGo attempt retries (pyRange1 retries)

/- ### downloader.process_url: extension parsing, filtering, item loop -/

/-- Python str.split on a one-character separator: the pieces between the
separator occurrences, empty pieces kept. -/
def splitOnChar (sep : Char) : List Char → List (List Char)
  | [] => [[]]
  | c :: rest =>
    match splitOnChar sep rest with
    | [] => if c = sep then [[], []] else [[c]]
    | h :: t => if c = sep then [] :: h :: t else (c :: h) :: t

/-- The extensions_list built in process_url: empty for the empty string
(Python falsy check), otherwise the comma-split entries each stripped of
surrounding whitespace. -/
def parseExtensions (extensions : String) : List String :=
  if extensions = "" then []
  else (splitOnChar ',' extensions.data).map (fun l => pyStrip (String.mk l))

/-- The filter condition of process_url: the allow-list is empty or
contains the extension of the URL exactly, and the URL is not among the
ledger contents loaded at the start of the run. -/
def accepts (extensions_list already : List String) (u : String) : Bool :=
  (extensions_list.isEmpty || extensions_list.contains (get_url_data u).extension)
    && !(already.contains u)

/-- One download task dictionary as built by process_url. -/
structure DTask where
  url : String
  name : Option String
  is_bunkr : Bool
  retries : Int
deriving Repr, DecidableEq

/-- What the item loop of process_url produced: the URLs appended to
url_list.txt, the download tasks, and the per-item resolution-failure
messages. -/
structure LoopOut where
  exports : List String
  tasks : List DTask
  logs : List String
deriving Repr, DecidableEq

/-- The message printed when a resolver returns no result for an item. -/
def unableMsg : String := "Unable to resolve a valid download URL."

/-- The per-item loop of process_url (downloader.py lines 111 to 134).
For a non-direct-link page each item is resolved first: a resolver
exception propagates (there is no try block around the loop), a resolver
returning nothing is logged and skipped.  Surviving items that pass the
filter are exported in export mode and turned into download tasks
otherwise. -/
def processItems (resolve : String → PyResult (Option ResolvedItem))
    (direct_link : Bool) (is_bunkr : Bool) (retries : Int)
    (extensions_list already : List String) (only_export : Bool) :
    List ResolvedItem → PyResult LoopOut
  | [] => .val ⟨[], [], []⟩
  | item :: rest =>
    let step : PyResult (Option ResolvedItem) :=
      if direct_link then .val (some item) else resolve item.url
    match step with
    | .exn e => .exn e
    | .val none =>
      match processItems resolve direct_link is_bunkr retries extensions_list
          already only_export rest with
      | .exn e => .exn e
      | .val out => .val ⟨out.exports, out.tasks, unableMsg :: out.logs⟩
    | .val (some it) =>
      match processItems resolve direct_link is_bunkr retries extensions_list
          already only_export rest with
      | .exn e => .exn e
      | .val out =>
        if accepts extensions_list already it.url then
          if only_export then .val ⟨it.url :: out.exports, out.tasks, out.logs⟩
          else .val ⟨out.exports,
            ⟨it.url, it.name, is_bunkr, retries⟩ :: out.tasks, out.logs⟩
        else .val ⟨out.exports, out.tasks, out.logs⟩

/-- Item construction for a bunkr direct-link page (downloader.py lines 79
to 81): the resolver result is subscripted with the url key without a None
check, so a resolver returning nothing raises TypeError and a resolver
exception propagates; only on success is the single-item list built (the
dictionary holds only the url key, so the name is dropped). -/
def directLinkItems (resolve : String → PyResult (Option ResolvedItem))
    (page_url : String) : PyResult (List ResolvedItem) :=
  match resolve page_url with
  | .exn e => .exn e
  | .val none => .exn "TypeError: NoneType object is not subscriptable"
  | .val (some r) => .val [{ url := r.url }]

/-- The error line printed when a finished download task raised. -/
def taskErrMsg (url e : String) : String :=
  "Error processing " ++ url ++ ": " ++ e

/-- The result-collection loop over completed download futures
(downloader.py lines 150 to 155): every exception raised by a task is
caught and logged and the loop continues, so the batch itself never
raises.  (Futures are observed in completion order in the source; the
trace here lists them in submission order, which the claims do not
distinguish.) -/
def runBatchR (runTask : DTask → PyResult Unit) : List DTask → PyResult (List String)
  | [] => .val []
  | t :: ts =>
    let head : List String :=
      match runTask t with
      | .exn e => [taskErrMsg t.url e]
      | .val _ => []
    match runBatchR runTask ts with
    | .exn e => .exn e
    | .val logs => .val (head ++ logs)

/- ### Reference combinators used to state the loop characterization -/

/-- The items of the batch that resolve successfully, in order. -/
def resolvedOf (resolve : String → PyResult (Option ResolvedItem))
    (items : List ResolvedItem) : List ResolvedItem :=
  items.filterMap (fun i =>
    match resolve i.url with
    | .val (some r) => some r
    | _ => none)

/-- The resolved items that pass the extension and ledger filters. -/
def acceptedOf (extensions_list already : List String)
    (ris : List ResolvedItem) : List ResolvedItem :=
  ris.filter (fun it => accepts extensions_list already it.url)

/-- The resolution-failure log lines of a batch. -/
def unresolvedLogsOf (resolve : String → PyResult (Option ResolvedItem))
    (items : List ResolvedItem) : List String :=
  items.filterMap (fun i =>
    match resolve i.url with
    | .val none => some unableMsg
    | _ => none)

/- ### Helper lemmas -/

/-- Characters of a stripped string are characters of the original. -/
theorem mem_pyStrip {c : Char} {s : String} (h : c ∈ (pyStrip s).data) :
    c ∈ s.data := by
  simp only [pyStrip] at h
  rw [List.mem_reverse] at h
  have h2 := (List.dropWhile_sublist _).mem h
  rw [List.mem_reverse] at h2
  exact (List.dropWhile_sublist _).mem h2

/-- The head of a dropped list is the element at the drop index. -/
theorem headDropGet (l : List Char) (n : Nat) : (l.drop n).head? = l.get? n := by
  induction n generalizing l with
  | zero => cases l <;> rfl
  | succ n ih =>
    cases l with
    | nil => rfl
    | cons a t => simp [ih t]

/-- rfindIdx returns an index whose element is the sought character. -/
theorem rfindIdx_get (c : Char) (l : List Char) (i : Nat)
    (h : rfindIdx c l = some i) : l.get? i = some c := by
  induction l generalizing i with
  | nil => simp [rfindIdx] at h
  | cons a t ih =>
    simp only [rfindIdx] at h
    cases ht : rfindIdx c t with
    | some j =>
      rw [ht] at h
      cases h
      simpa using ih j ht
    | none =>
      rw [ht] at h
      by_cases hac : a = c
      · rw [if_pos hac] at h
        cases h
        simp [hac]
      · rw [if_neg hac] at h
        cases h

/-- C8: remove_illegal_chars replaces every occurrence of the characters
<  >  :  "  /  \  |  ?  *  and the apostrophe, and every control byte in
0x00..0x19, with a dash and then trims surrounding whitespace: hence no
illegal character survives in the output, and the album title
My/Album:Name becomes My-Album-Name. -/
theorem c8_remove_illegal_chars (s : String) :
    (∀ c ∈ (remove_illegal_chars s).data, isIllegalChar c = false)
      ∧ remove_illegal_chars "My/Album:Name" = "My-Album-Name" := by
  constructor
  · intro c hc
    have h1 : c ∈ s.data.map (fun c => if isIllegalChar c then '-' else c) :=
      mem_pyStrip (s := String.mk (s.data.map
        (fun c => if isIllegalChar c then '-' else c))) hc
    rw [List.mem_map] at h1
    obtain ⟨a, _, rfl⟩ := h1
    cases hb : isIllegalChar a with
    | true =>
      show isIllegalChar '-' = false
      decide
    | false => simpa using hb
  · decide

/-- The indexed filter of the status-page loop equals dropping the first
five entries (counted from the full element list) and mapping the suffix
rule, for any starting index. -/
theorem cdnEnumDrop (g : String → String) (l : List String) :
    ∀ k : Nat,
      (List.enumFrom k l).filterMap
          (fun p => if p.1 > 4 then some (g p.2) else none)
        = (l.drop (5 - k)).map g := by
  induction l with
  | nil => intro k; simp
  | cons a t ih =>
    intro k
    by_cases h : k > 4
    · have h5 : 5 - k = 0 := by omega
      have h6 : 5 - (k + 1) = 0 := by omega
      simp [List.enumFrom, List.filterMap_cons, h, ih (k + 1), h5, h6]
    · have h5 : 5 - k = (4 - k) + 1 := by omega
      have h6 : 5 - (k + 1) = 4 - k := by omega
      simp [List.enumFrom, List.filterMap_cons, h, ih (k + 1), h5, h6]

/-- C7 counterexample: on a status page with exactly five list entries the
claimed skip-four rule would keep the fifth entry, but get_cdn_list skips
it too and returns an empty host list. -/
theorem c7_counterexample :
    get_cdn_list (some ["alpha", "beta", "gamma", "delta", "epsilon"]) = some []
      ∧ (["alpha", "beta", "gamma", "delta", "epsilon"].drop 4).map
          (fun t => pyLower t ++ ".bunkr.ru") = ["epsilon.bunkr.ru"] := by
  constructor
  · rfl
  · decide

/-- C7 (amended): get_cdn_list skips the first five list entries (the
slice drops one and the index filter drops four more) and maps each
remaining entry text, lowercased, to text.bunkr.ru in order; a non-200
fetch of the status page yields no list. -/
theorem c7_get_cdn_list :
    get_cdn_list none = none
      ∧ ∀ l : List String,
          get_cdn_list (some l)
            = some ((l.drop 5).map (fun t => pyLower t ++ ".bunkr.ru")) := by
  constructor
  · rfl
  · intro l
    simp only [get_cdn_list]
    rw [cdnEnumDrop (fun t => pyLower t ++ ".bunkr.ru") (l.drop 1) 1, List.drop_drop]

/-- On a present host list the probe is exactly the host loop (an empty
list short-circuits to the same empty result). -/
theorem get_cdn_file_url_some (probe : String → ProbeOutcome) (g : String)
    (f : Option String) (l : List String) :
    get_cdn_file_url probe (some l) g f = cdnLoop probe g f l := by
  cases l <;> simp [get_cdn_file_url, cdnLoop]

/-- C3: the CDN probe tries hosts strictly in list order, building
https host slash fileName when a file name is given and otherwise https
host slash the text after the slash-d-slash marker; the first 200 answer
is returned at once with no later host probed, a 404 and a network error
move to the next host, a 403 and every other non-200 status return nothing
immediately, and an absent or empty host list, or a missing marker without
a file name, yield nothing. -/
theorem c3_get_cdn_file_url (probe : String → ProbeOutcome) (g : String)
    (f : Option String) :
    (get_cdn_file_url probe none g f = (none, [])
      ∧ get_cdn_file_url probe (some []) g f = (none, []))
    ∧ (∀ fn cdn, cdnCandidate g (some fn) cdn
        = some ("https://" ++ cdn ++ "/" ++ fn))
    ∧ (∀ pos cdn, strFind g "/d/" = some pos →
        cdnCandidate g none cdn
          = some ("https://" ++ cdn ++ "/" ++ String.mk (g.data.drop (pos + 3))))
    ∧ (strFind g "/d/" = none →
        ∀ l, get_cdn_file_url probe (some l) g none = (none, []))
    ∧ (∀ cdn rest u, cdnCandidate g f cdn = some u → probe u = .status 200 →
        get_cdn_file_url probe (some (cdn :: rest)) g f = (some u, [u]))
    ∧ (∀ cdn rest u, cdnCandidate g f cdn = some u → probe u = .status 404 →
        get_cdn_file_url probe (some (cdn :: rest)) g f
          = ((get_cdn_file_url probe (some rest) g f).1,
             u :: (get_cdn_file_url probe (some rest) g f).2))
    ∧ (∀ cdn rest u e, cdnCandidate g f cdn = some u → probe u = .netErr e →
        get_cdn_file_url probe (some (cdn :: rest)) g f
          = ((get_cdn_file_url probe (some rest) g f).1,
             u :: (get_cdn_file_url probe (some rest) g f).2))
    ∧ (∀ cdn rest u, cdnCandidate g f cdn = some u → probe u = .status 403 →
        get_cdn_file_url probe (some (cdn :: rest)) g f = (none, [u]))
    ∧ (∀ cdn rest u s, cdnCandidate g f cdn = some u → probe u = .status s →
        s ≠ 200 → s ≠ 404 → s ≠ 403 →
        get_cdn_file_url probe (some (cdn :: rest)) g f = (none, [u])) := by
  refine ⟨⟨rfl, rfl⟩, fun fn cdn => rfl, fun pos cdn h => by simp [cdnCandidate, h],
    fun h l => ?_, fun cdn rest u hc hp => ?_, fun cdn rest u hc hp => ?_,
    fun cdn rest u e hc hp => ?_, fun cdn rest u hc hp => ?_,
    fun cdn rest u s hc hp h200 h404 h403 => ?_⟩
  · cases l with
    | nil => rfl
    | cons cdn rest =>
      rw [get_cdn_file_url_some]
      simp [cdnLoop, cdnCandidate, h]
  · rw [get_cdn_file_url_some]
    simp [cdnLoop, hc, hp]
  · rw [get_cdn_file_url_some, get_cdn_file_url_some]
    simp [cdnLoop, hc, hp]
  · rw [get_cdn_file_url_some, get_cdn_file_url_some]
    simp [cdnLoop, hc, hp]
  · rw [get_cdn_file_url_some]
    simp [cdnLoop, hc, hp]
  · rw [get_cdn_file_url_some]
    simp [cdnLoop, hc, hp, h200, h404, h403]

/-- Probe oracle for the C3 witness: the first host answers 404, the
second answers 200. -/
def c3probe : String → ProbeOutcome := fun u =>
  if u = "https://h2.bunkr.ru/f.jpg" then .status 200 else .status 404

/-- C3 witness: with hosts h1 and h2 where h1 yields 404 and h2 yields
200, the probe returns the h2 candidate after requesting exactly the two
candidates in order. -/
theorem c3_witness :
    get_cdn_file_url c3probe (some ["h1.bunkr.ru", "h2.bunkr.ru"])
        "https://bunkr.sk/d/f.jpg" none
      = (some "https://h2.bunkr.ru/f.jpg",
         ["https://h1.bunkr.ru/f.jpg", "https://h2.bunkr.ru/f.jpg"]) := by
  have h1 := (c3_get_cdn_file_url c3probe "https://bunkr.sk/d/f.jpg" none).2.2.2.2.2.1
    "h1.bunkr.ru" ["h2.bunkr.ru"] "https://h1.bunkr.ru/f.jpg" (by decide) (by decide)
  have h2 := (c3_get_cdn_file_url c3probe "https://bunkr.sk/d/f.jpg" none).2.2.2.2.1
    "h2.bunkr.ru" [] "https://h2.bunkr.ru/f.jpg" (by decide) (by decide)
  rw [h1, h2]

/-- C2: for a bunkr download whose declared content length is positive, a
written size different from that length logs the corruption warning and
appends nothing to the ledger; and any ledger append at all is the
resolved item URL (never the file name), happens only with the body fully
written to disk, and, for bunkr downloads with positive declared length,
only when the on-disk size equals that length. -/
theorem c2_download_integrity (resp : DlResponse) (item_url : String)
    (is_bunkr : Bool) (file_name : Option String) :
    (is_bunkr = true → 0 < headerFileSize resp.content_length →
      (bodyWritten resp : Int) ≠ headerFileSize resp.content_length →
      (download resp item_url is_bunkr file_name).wroteFile = some (bodyWritten resp) →
      (download resp item_url is_bunkr file_name).ledgerAppends = []
        ∧ (download resp item_url is_bunkr file_name).logs
            = ["File size mismatch for "
                ++ (file_name.getD (get_url_data item_url).file_name)
                ++ "; the file may be corrupted."])
    ∧ (∀ u, u ∈ (download resp item_url is_bunkr file_name).ledgerAppends →
        u = item_url
        ∧ (download resp item_url is_bunkr file_name).wroteFile
            = some (bodyWritten resp)
        ∧ (is_bunkr = true → 0 < headerFileSize resp.content_length →
            (bodyWritten resp : Int) = headerFileSize resp.content_length)) := by
  unfold download
  dsimp only
  split_ifs with h1 h2 h3 h4
  · exact ⟨fun hb hpos hne hw => by simp at hw, fun u hu => by simp at hu⟩
  · exact ⟨fun hb hpos hne hw => by simp at hw, fun u hu => by simp at hu⟩
  · exact ⟨fun hb hpos hne hw => ⟨rfl, rfl⟩, fun u hu => by simp at hu⟩
  · refine ⟨fun hb hpos hne hw => absurd hne h4, fun u hu => ?_⟩
    simp at hu
    subst hu
    exact ⟨rfl, rfl, fun hb hpos => Decidable.not_not.mp h4⟩
  · refine ⟨fun hb hpos hne hw => absurd (by simp [hb, hpos]) h3, fun u hu => ?_⟩
    simp at hu
    subst hu
    refine ⟨rfl, rfl, fun hb hpos => absurd (by simp [hb, hpos]) h3⟩

/-- C2 witness: a bunkr response declaring content-length 1000 whose body
is 900 bytes logs the corruption warning and leaves the ledger untouched. -/
theorem c2_witness :
    (download ⟨200, "https://cdn.bunkr.ru/x.mp4", some "1000", [900]⟩
        "https://cdn.bunkr.ru/x.mp4" true none).ledgerAppends = []
      ∧ (download ⟨200, "https://cdn.bunkr.ru/x.mp4", some "1000", [900]⟩
          "https://cdn.bunkr.ru/x.mp4" true none).logs
        = ["File size mismatch for "
            ++ ((none : Option String).getD
                (get_url_data "https://cdn.bunkr.ru/x.mp4").file_name)
            ++ "; the file may be corrupted."] :=
  (c2_download_integrity ⟨200, "https://cdn.bunkr.ru/x.mp4", some "1000", [900]⟩
      "https://cdn.bunkr.ru/x.mp4" true none).1
    rfl (by decide) (by decide) (by decide)

/-- True for a requests.RequestException outcome. -/
def AttemptOutcome.isRequestExn : AttemptOutcome → Bool
  | .requestExn _ => true
  | _ => false

/-- The retry loop never makes more attempts than it has attempt numbers. -/
theorem retryGo_attempts_le (attempt : Nat → AttemptOutcome) (retries : Int) :
    ∀ l : List Nat, (retryGo attempt retries l).attemptsMade ≤ l.length := by
  intro l
  induction l with
  | nil => simp [retryGo]
  | cons k rest ih =>
    simp only [retryGo, List.length_cons]
    cases attempt k with
    | ret eff => simp
    | requestExn e =>
      by_cases h : (k : Int) < retries
      · simp [h]; omega
      · simp [h]; omega
    | otherExn e => simp

/-- Transport failures on every attempt from a up to but excluding j, then
a normal return of download on attempt j within bounds: the loop stops at
j with one backoff per failed attempt and the ledger writes of that
download. -/
theorem retryGo_ret (attempt : Nat → AttemptOutcome) (retries : Int)
    (eff : DlEffect) (j : Nat) :
    ∀ (m a : Nat), a ≤ j → j < a + m → (j : Int) ≤ retries →
      (∀ k, a ≤ k → k < j → (attempt k).isRequestExn = true) →
      attempt j = .ret eff →
      retryGo attempt retries (List.range' a m)
        = ⟨j - a + 1, List.replicate (j - a) 2, eff.ledgerAppends, false, false⟩ := by
  intro m
  induction m with
  | zero => intro a h1 h2 _ _ _; omega
  | succ m ih =>
    intro a h1 h2 h3 h4 h5
    rw [List.range'_succ]
    rcases Nat.eq_or_lt_of_le h1 with he | hlt
    · subst he
      simp [retryGo, h5]
    · have hk := h4 a (Nat.le_refl a) hlt
      cases hka : attempt a with
      | ret e => rw [hka] at hk; simp [AttemptOutcome.isRequestExn] at hk
      | otherExn e => rw [hka] at hk; simp [AttemptOutcome.isRequestExn] at hk
      | requestExn e =>
        have hcond : (a : Int) < retries := by omega
        have hrec := ih (a + 1) hlt (by omega) h3
          (fun k hk1 hk2 => h4 k (by omega) hk2) h5
        simp only [retryGo, hka, hcond, if_true, hrec]
        have hj : j - a = (j - (a + 1)) + 1 := by omega
        rw [hj, List.replicate_succ]

/-- One step of the retry loop on a transport failure. -/
theorem retryGo_cons_req (attempt : Nat → AttemptOutcome) (retries : Int)
    (k : Nat) (rest : List Nat) (e : String) (h : attempt k = .requestExn e) :
    retryGo attempt retries (k :: rest)
      = if (k : Int) < retries then
          ⟨(retryGo attempt retries rest).attemptsMade + 1,
           2 :: (retryGo attempt retries rest).backoffs,
           (retryGo attempt retries rest).ledger,
           (retryGo attempt retries rest).finalFailureLogged,
           (retryGo attempt retries rest).unexpectedLogged⟩
        else
          ⟨(retryGo attempt retries rest).attemptsMade + 1,
           (retryGo attempt retries rest).backoffs,
           (retryGo attempt retries rest).ledger,
           true,
           (retryGo attempt retries rest).unexpectedLogged⟩ := by
  by_cases hc : (k : Int) < retries <;> simp [retryGo, h, hc]

/-- Transport failures on every attempt of the whole range ending exactly
at the last allowed attempt: the loop runs all attempts, sleeps between
consecutive ones only, logs the final failure and never touches the
ledger. -/
theorem retryGo_allReq (attempt : Nat → AttemptOutcome) (retries : Int) :
    ∀ (m a : Nat), ((a + m : Nat) : Int) = retries →
      (∀ k, a ≤ k → (k : Int) ≤ retries → (attempt k).isRequestExn = true) →
      retryGo attempt retries (List.range' a (m + 1))
        = ⟨m + 1, List.replicate m 2, [], true, false⟩ := by
  intro m
  induction m with
  | zero =>
    intro a ha hk
    have hreq := hk a (Nat.le_refl a) (by omega)
    cases hka : attempt a with
    | ret e => rw [hka] at hreq; simp [AttemptOutcome.isRequestExn] at hreq
    | otherExn e => rw [hka] at hreq; simp [AttemptOutcome.isRequestExn] at hreq
    | requestExn e =>
      have hcond : ¬ ((a : Int) < retries) := by omega
      simp [List.range'_succ, retryGo, hka, hcond]
  | succ m ih =>
    intro a ha hk
    have hreq := hk a (Nat.le_refl a) (by omega)
    cases hka : attempt a with
    | ret e => rw [hka] at hreq; simp [AttemptOutcome.isRequestExn] at hreq
    | otherExn e => rw [hka] at hreq; simp [AttemptOutcome.isRequestExn] at hreq
    | requestExn e =>
      have hcond : (a : Int) < retries := by omega
      have hrec := ih (a + 1) (by omega) (fun k hk1 hk2 => hk k (by omega) hk2)
      rw [List.range'_succ, retryGo_cons_req attempt retries a _ e hka,
        if_pos hcond, hrec]
      rfl

/-- Transport failures strictly before attempt j and a non-transport
exception on attempt j within bounds: the loop stops at j with one backoff
per earlier failure, no final-failure log and no ledger write. -/
theorem retryGo_other (attempt : Nat → AttemptOutcome) (retries : Int)
    (e : String) (j : Nat) :
    ∀ (m a : Nat), a ≤ j → j < a + m → (j : Int) ≤ retries →
      (∀ k, a ≤ k → k < j → (attempt k).isRequestExn = true) →
      attempt j = .otherExn e →
      retryGo attempt retries (List.range' a m)
        = ⟨j - a + 1, List.replicate (j - a) 2, [], false, true⟩ := by
  intro m
  induction m with
  | zero => intro a h1 h2 _ _ _; omega
  | succ m ih =>
    intro a h1 h2 h3 h4 h5
    rw [List.range'_succ]
    rcases Nat.eq_or_lt_of_le h1 with he | hlt
    · subst he
      simp [retryGo, h5]
    · have hk := h4 a (Nat.le_refl a) hlt
      cases hka : attempt a with
      | ret ef => rw [hka] at hk; simp [AttemptOutcome.isRequestExn] at hk
      | otherExn ef => rw [hka] at hk; simp [AttemptOutcome.isRequestExn] at hk
      | requestExn ef =>
        have hcond : (a : Int) < retries := by omega
        have hrec := ih (a + 1) hlt (by omega) h3
          (fun k hk1 hk2 => h4 k (by omega) hk2) h5
        simp only [retryGo, hka, hcond, if_true, hrec]
        have hj : j - a = (j - (a + 1)) + 1 := by omega
        rw [hj, List.replicate_succ]

/-- C4: with maxAttempts r the loop makes at most r attempts; transport
failures before a successful attempt j each cause exactly one backoff
sleep of 2 before the next attempt and the success stops the loop with the
ledger writes of that download; transport failures on every allowed
attempt log the final failure after r attempts with r minus one backoffs
and no ledger write; and a non-transport failure stops the loop at once
with no backoff for it and no ledger write. -/
theorem c4_download_with_retries (attempt : Nat → AttemptOutcome) (r : Int) :
    (download_with_retries attempt r).attemptsMade ≤ r.toNat
    ∧ (∀ (j : Nat) (eff : DlEffect), 1 ≤ j → (j : Int) ≤ r →
        (∀ k, 1 ≤ k → k < j → (attempt k).isRequestExn = true) →
        attempt j = .ret eff →
        download_with_retries attempt r
          = ⟨j, List.replicate (j - 1) 2, eff.ledgerAppends, false, false⟩)
    ∧ ((1 ≤ r ∧ ∀ (k : Nat), 1 ≤ k → (k : Int) ≤ r → (attempt k).isRequestExn = true) →
        download_with_retries attempt r
          = ⟨r.toNat, List.replicate (r.toNat - 1) 2, [], true, false⟩)
    ∧ (∀ (j : Nat) (e : String), 1 ≤ j → (j : Int) ≤ r →
        (∀ k, 1 ≤ k → k < j → (attempt k).isRequestExn = true) →
        attempt j = .otherExn e →
        download_with_retries attempt r
          = ⟨j, List.replicate (j - 1) 2, [], false, true⟩) := by
  refine ⟨?_, fun j eff h1 h2 h3 h4 => ?_, fun h => ?_, fun j e h1 h2 h3 h4 => ?_⟩
  · calc (download_with_retries attempt r).attemptsMade
        ≤ (pyRange1 r).length := retryGo_attempts_le attempt r (pyRange1 r)
      _ = r.toNat := by simp [pyRange1]
  · have hj : j - 1 + 1 = j := by omega
    have := retryGo_ret attempt r eff j r.toNat 1 h1 (by omega) h2
      (fun k hk1 hk2 => h3 k hk1 hk2) h4
    rw [download_with_retries, pyRange1, this, hj]
  · obtain ⟨hr, hk⟩ := h
    obtain ⟨m, hm⟩ : ∃ m, r.toNat = m + 1 := ⟨r.toNat - 1, by omega⟩
    have := retryGo_allReq attempt r m 1 (by omega)
      (fun k hk1 hk2 => hk k hk1 hk2)
    rw [download_with_retries, pyRange1, hm, this]
    rfl
  · have hj : j - 1 + 1 = j := by omega
    have := retryGo_other attempt r e j r.toNat 1 h1 (by omega) h2
      (fun k hk1 hk2 => h3 k hk1 hk2) h4
    rw [download_with_retries, pyRange1, this, hj]

/-- Attempt oracle for the C4 witness: transport failures on attempts 1
and 2, then a download that returns normally and appends its URL. -/
def c4attempt : Nat → AttemptOutcome := fun k =>
  if k ≤ 2 then .requestExn "ConnectionError"
  else .ret { wroteFile := some 5, ledgerAppends := ["https://cdn.bunkr.ru/u.mp4"] }

/-- C4 witness: transport failures on attempts 1 and 2 of 3 followed by
success on attempt 3 give exactly three attempts, two backoff sleeps of 2
and one ledger entry. -/
theorem c4_witness :
    download_with_retries c4attempt 3
      = ⟨3, List.replicate 2 2, ["https://cdn.bunkr.ru/u.mp4"], false, false⟩ :=
  (c4_download_with_retries c4attempt 3).2.1 3
    { wroteFile := some 5, ledgerAppends := ["https://cdn.bunkr.ru/u.mp4"] }
    (by decide) (by decide)
    (by intro k h1 h2; interval_cases k <;> rfl) rfl

/-- C10: a retry count of zero or below runs the loop body not at all: no
attempt is made (so no request is issued and no file is opened), nothing
is appended to the ledger, and the call returns normally with no failure
logged. -/
theorem c10_nonpositive_retries (attempt : Nat → AttemptOutcome) (r : Int)
    (h : r ≤ 0) :
    download_with_retries attempt r = ⟨0, [], [], false, false⟩ := by
  have h0 : r.toNat = 0 := Int.toNat_of_nonpos h
  rw [download_with_retries, pyRange1, h0]
  rfl

/-- C10 witness: a task with retry count -5 performs zero attempts and
leaves every effect empty. -/
theorem c10_witness :
    download_with_retries (fun _ => AttemptOutcome.otherExn "never called") (-5)
      = ⟨0, [], [], false, false⟩ :=
  c10_nonpositive_retries (fun _ => AttemptOutcome.otherExn "never called") (-5)
    (by decide)

/-- C6: on a fetched bunkr page the resolver returns, with no size hint,
the first truthy of source src, media-player src and styled img src in
that fixed priority (independent of where the elements sit in the DOM);
when all three are absent it falls back to the CDN probe on the page URL
if a truncate heading exists, and resolves to nothing when the heading is
absent too. -/
theorem c6_bunkr_priority (fetch : String → PageFetch)
    (probe : String → ProbeOutcome) (cdn_list : Option (List String))
    (url : String) (page : BunkrPage)
    (hf : fetch (normalizeBunkrUrl url) = .resp 200 page) :
    (∀ a, truthyAttr page.source_src = some a →
        bunkr_get_real_download_url fetch probe cdn_list url
          = .val (some { url := a, size := -1, name := none }))
    ∧ (∀ a, truthyAttr page.source_src = none →
        truthyAttr page.media_player_src = some a →
        bunkr_get_real_download_url fetch probe cdn_list url
          = .val (some { url := a, size := -1, name := none }))
    ∧ (∀ a, truthyAttr page.source_src = none →
        truthyAttr page.media_player_src = none →
        truthyAttr page.styled_img_src = some a →
        bunkr_get_real_download_url fetch probe cdn_list url
          = .val (some { url := a, size := -1, name := none }))
    ∧ (∀ ru, truthyAttr page.source_src = none →
        truthyAttr page.media_player_src = none →
        truthyAttr page.styled_img_src = none →
        page.has_truncate_h1 = true →
        (get_cdn_file_url probe cdn_list (normalizeBunkrUrl url) none).1 = some ru →
        bunkr_get_real_download_url fetch probe cdn_list url
          = .val (some { url := ru, size := -1, name := none }))
    ∧ (truthyAttr page.source_src = none →
        truthyAttr page.media_player_src = none →
        truthyAttr page.styled_img_src = none →
        page.has_truncate_h1 = true →
        (get_cdn_file_url probe cdn_list (normalizeBunkrUrl url) none).1 = none →
        bunkr_get_real_download_url fetch probe cdn_list url = .val none)
    ∧ (truthyAttr page.source_src = none →
        truthyAttr page.media_player_src = none →
        truthyAttr page.styled_img_src = none →
        page.has_truncate_h1 = false →
        bunkr_get_real_download_url fetch probe cdn_list url = .val none) := by
  refine ⟨fun a h1 => ?_, fun a h1 h2 => ?_, fun a h1 h2 h3 => ?_,
    fun ru h1 h2 h3 h4 h5 => ?_, fun h1 h2 h3 h4 h5 => ?_, fun h1 h2 h3 h4 => ?_⟩
  all_goals
    unfold bunkr_get_real_download_url
    dsimp only
    rw [hf]
  · simp [h1]
  · simp [h1, h2]
  · simp [h1, h2, h3]
  · simp [h1, h2, h3, h4, h5]
  · simp [h1, h2, h3, h4, h5]
  · simp [h1, h2, h3, h4]

/-- Page for the C6 witness: both a source element with src A and a styled
img with src B are present. -/
def c6page : BunkrPage :=
  { source_src := some "A", media_player_src := none,
    styled_img_src := some "B", has_truncate_h1 := false }

/-- C6 witness: a page carrying both a source src A and a styled img src B
resolves to A with no size hint. -/
theorem c6_witness :
    bunkr_get_real_download_url (fun _ => .resp 200 c6page)
        (fun _ => .status 404) (some []) "https://bunkr.sk/v/x"
      = .val (some { url := "A", size := -1, name := none }) :=
  (c6_bunkr_priority (fun _ => .resp 200 c6page) (fun _ => .status 404)
      (some []) "https://bunkr.sk/v/x" c6page rfl).1 "A" rfl

/-- Characterization of the item loop on a non-direct page whose items all
resolve without raising: it returns normally; export mode appends exactly
the accepted resolved URLs, download mode builds exactly the accepted
tasks, and the failure log has one line per item that resolved to
nothing. -/
theorem processItems_char (resolve : String → PyResult (Option ResolvedItem))
    (b : Bool) (r : Int) (el al : List String) (ex : Bool) :
    ∀ items : List ResolvedItem,
      (∀ i ∈ items, (resolve i.url).isVal = true) →
      processItems resolve false b r el al ex items
        = .val ⟨(if ex then (acceptedOf el al (resolvedOf resolve items)).map
                    (fun it => it.url)
                  else []),
                (if ex then []
                  else (acceptedOf el al (resolvedOf resolve items)).map
                    (fun it => ⟨it.url, it.name, b, r⟩)),
                unresolvedLogsOf resolve items⟩ := by
  intro items
  induction items with
  | nil =>
    intro _
    simp [processItems, resolvedOf, acceptedOf, unresolvedLogsOf]
  | cons i t ih =>
    intro h
    have hi := h i (List.mem_cons_self i t)
    have ht := ih (fun x hx => h x (List.mem_cons_of_mem i hx))
    cases hri : resolve i.url with
    | exn e => rw [hri] at hi; simp [PyResult.isVal] at hi
    | val o =>
      cases o with
      | none =>
        simp only [processItems, Bool.false_eq_true, if_false, hri, ht]
        simp [resolvedOf, acceptedOf, unresolvedLogsOf, hri, List.filterMap_cons]
      | some it =>
        simp only [processItems, Bool.false_eq_true, if_false, hri, ht]
        by_cases hacc : accepts el al it.url
        · cases ex with
          | true =>
            simp [resolvedOf, acceptedOf, unresolvedLogsOf, hri, hacc,
              List.filterMap_cons, List.filter_cons]
          | false =>
            simp [resolvedOf, acceptedOf, unresolvedLogsOf, hri, hacc,
              List.filterMap_cons, List.filter_cons]
        · cases ex with
          | true =>
            simp [resolvedOf, acceptedOf, unresolvedLogsOf, hri, hacc,
              List.filterMap_cons, List.filter_cons]
          | false =>
            simp [resolvedOf, acceptedOf, unresolvedLogsOf, hri, hacc,
              List.filterMap_cons, List.filter_cons]

/-- The filter of process_url as a proposition: the allow-list is empty or
holds the extension, and the URL is not among the loaded ledger lines. -/
theorem accepts_iff (el al : List String) (u : String) :
    accepts el al u = true ↔
      ((el = [] ∨ (get_url_data u).extension ∈ el) ∧ u ∉ al) := by
  simp [accepts, List.isEmpty_iff, List.elem_iff]

/-- C5: when every item of a batch resolves without raising, the loop
completes, and a URL is exported (export mode) or enqueued as a task
(download mode) exactly when it is the URL of some resolved item, the
comma-split whitespace-trimmed allow-list is empty or contains its derived
extension exactly, and it is absent from the ledger contents loaded at the
start of the run; in particular every URL already in the ledger appears in
neither the export list nor the task batch. -/
theorem c5_filtering (resolve : String → PyResult (Option ResolvedItem))
    (b : Bool) (r : Int) (extensions : String) (already : List String)
    (ex : Bool) (items : List ResolvedItem)
    (h : ∀ i ∈ items, (resolve i.url).isVal = true) :
    ∃ out : LoopOut,
      processItems resolve false b r (parseExtensions extensions) already ex items
        = .val out
      ∧ (∀ u, u ∈ (if ex then out.exports else out.tasks.map (fun t => t.url)) ↔
          ((∃ it ∈ resolvedOf resolve items, it.url = u)
            ∧ (parseExtensions extensions = []
                ∨ (get_url_data u).extension ∈ parseExtensions extensions)
            ∧ u ∉ already))
      ∧ (if ex then out.tasks = [] else out.exports = [])
      ∧ (∀ u ∈ already, u ∉ out.exports ∧ u ∉ out.tasks.map (fun t => t.url)) := by
  refine ⟨_, processItems_char resolve b r (parseExtensions extensions) already
    ex items h, ?_, ?_, ?_⟩
  · intro u
    cases ex with
    | true =>
      show u ∈ (acceptedOf (parseExtensions extensions) already
          (resolvedOf resolve items)).map (fun it => it.url) ↔ _
      simp only [acceptedOf, List.mem_map, List.mem_filter]
      constructor
      · rintro ⟨it, ⟨hmem, hacc⟩, rfl⟩
        have hia := (accepts_iff (parseExtensions extensions) already it.url).mp hacc
        exact ⟨⟨it, hmem, rfl⟩, hia.1, hia.2⟩
      · rintro ⟨⟨it, hmem, rfl⟩, hcond, hnot⟩
        exact ⟨it, ⟨hmem, (accepts_iff _ _ _).mpr ⟨hcond, hnot⟩⟩, rfl⟩
    | false =>
      show u ∈ ((acceptedOf (parseExtensions extensions) already
          (resolvedOf resolve items)).map
            (fun it => (⟨it.url, it.name, b, r⟩ : DTask))).map (fun t => t.url) ↔ _
      simp only [acceptedOf, List.map_map, List.mem_map, List.mem_filter,
        Function.comp]
      constructor
      · rintro ⟨it, ⟨hmem, hacc⟩, rfl⟩
        have hia := (accepts_iff (parseExtensions extensions) already it.url).mp hacc
        exact ⟨⟨it, hmem, rfl⟩, hia.1, hia.2⟩
      · rintro ⟨⟨it, hmem, rfl⟩, hcond, hnot⟩
        exact ⟨it, ⟨hmem, (accepts_iff _ _ _).mpr ⟨hcond, hnot⟩⟩, rfl⟩
  · cases ex with
    | true => rfl
    | false => rfl
  · intro u hu
    cases ex with
    | true =>
      constructor
      · intro hmem
        have hm2 : u ∈ (acceptedOf (parseExtensions extensions) already
            (resolvedOf resolve items)).map (fun it => it.url) := hmem
        simp only [acceptedOf, List.mem_map, List.mem_filter] at hm2
        obtain ⟨it, ⟨_, hacc⟩, rfl⟩ := hm2
        exact ((accepts_iff _ _ _).mp hacc).2 hu
      · simp
    | false =>
      constructor
      · simp
      · intro hmem
        have hm2 : u ∈ ((acceptedOf (parseExtensions extensions) already
            (resolvedOf resolve items)).map
              (fun it => (⟨it.url, it.name, b, r⟩ : DTask))).map
                (fun t => t.url) := hmem
        simp only [acceptedOf, List.map_map, List.mem_map, List.mem_filter,
          Function.comp] at hm2
        obtain ⟨it, ⟨_, hacc⟩, rfl⟩ := hm2
        exact ((accepts_iff _ _ _).mp hacc).2 hu

/-- Resolver for the C5 witness: every page resolves to itself. -/
def c5resolve : String → PyResult (Option ResolvedItem) :=
  fun u => .val (some { url := u })

/-- C5 witness: with allow-list .jpg and a ledger holding one of the two
jpg URLs, the surviving task set is exactly the other jpg URL. -/
theorem c5_witness :
    ∃ out : LoopOut,
      processItems c5resolve false true 10 (parseExtensions ".jpg")
          ["https://h/c.jpg"] false
          [{ url := "https://h/a.jpg" }, { url := "https://h/b.png" },
           { url := "https://h/c.jpg" }]
        = .val out
      ∧ (∀ u, u ∈ (if false then out.exports
            else out.tasks.map (fun t => t.url)) ↔
          ((∃ it ∈ resolvedOf c5resolve
                [{ url := "https://h/a.jpg" }, { url := "https://h/b.png" },
                 { url := "https://h/c.jpg" }], it.url = u)
            ∧ (parseExtensions ".jpg" = []
                ∨ (get_url_data u).extension ∈ parseExtensions ".jpg")
            ∧ u ∉ ["https://h/c.jpg"]))
      ∧ (if false then out.tasks = [] else out.exports = [])
      ∧ (∀ u ∈ ["https://h/c.jpg"],
          u ∉ out.exports ∧ u ∉ out.tasks.map (fun t => t.url)) :=
  c5_filtering c5resolve true 10 ".jpg" ["https://h/c.jpg"] false
    [{ url := "https://h/a.jpg" }, { url := "https://h/b.png" },
     { url := "https://h/c.jpg" }]
    (fun _ _ => rfl)

/-- C1 counterexample: a cyberdrop item whose API endpoint answers 200
with well-formed JSON that lacks the url field makes the resolver raise
KeyError, and the item loop of process_url, which has no handler around
resolution, propagates it: the whole batch aborts instead of skipping the
item. -/
theorem c1_counterexample :
    processItems
        (cyberdrop_get_real_download_url
          (fun _ => .resp 200 (.obj [("name", "file.jpg")])))
        false false 10 [] [] false
        [{ url := "https://cyberdrop.me/f/abc" }]
      = .exn "KeyError: url" := by
  rfl

/-- C1 (amended): every per-task download failure is caught by the
result-collection loop, logged with the task URL, and the batch runner
itself always returns normally; a resolver that returns no result for an
item of a non-direct page is logged and skipped and the item loop
completes over the remaining items; but an exception raised while
resolving an item propagates out of the item loop and aborts the batch,
and on a direct-link page a resolver returning no result is subscripted
and raises as well. -/
theorem c1_failure_isolation :
    (∀ (resolve : String → PyResult (Option ResolvedItem)) (b : Bool) (r : Int)
        (el al : List String) (ex : Bool) (items : List ResolvedItem),
        (∀ i ∈ items, (resolve i.url).isVal = true) →
        ∃ out : LoopOut,
          processItems resolve false b r el al ex items = .val out)
    ∧ (∀ (runTask : DTask → PyResult Unit) (tasks : List DTask),
        runBatchR runTask tasks
          = .val (tasks.filterMap (fun t =>
              match runTask t with
              | .exn e => some (taskErrMsg t.url e)
              | .val _ => none)))
    ∧ (∀ (resolve : String → PyResult (Option ResolvedItem)) (b : Bool) (r : Int)
        (el al : List String) (ex : Bool) (i : ResolvedItem)
        (rest : List ResolvedItem) (e : String),
        resolve i.url = .exn e →
        processItems resolve false b r el al ex (i :: rest) = .exn e)
    ∧ (∀ (resolve : String → PyResult (Option ResolvedItem)) (page_url : String),
        resolve page_url = .val none →
        directLinkItems resolve page_url
          = .exn "TypeError: NoneType object is not subscriptable") := by
  refine ⟨fun resolve b r el al ex items h => ?_,
    fun runTask tasks => ?_, fun resolve b r el al ex i rest e he => ?_,
    fun resolve page_url hn => ?_⟩
  · induction items with
    | nil => exact ⟨⟨[], [], []⟩, rfl⟩
    | cons i t ih =>
      obtain ⟨out, hout⟩ := ih (fun x hx => h x (List.mem_cons_of_mem i hx))
      have hi := h i (List.mem_cons_self i t)
      cases hri : resolve i.url with
      | exn e => rw [hri] at hi; simp [PyResult.isVal] at hi
      | val o =>
        cases o with
        | none =>
          refine ⟨⟨out.exports, out.tasks, unableMsg :: out.logs⟩, ?_⟩
          simp [processItems, hri, hout]
        | some it =>
          by_cases hacc : accepts el al it.url
          · cases ex with
            | true =>
              refine ⟨⟨it.url :: out.exports, out.tasks, out.logs⟩, ?_⟩
              simp [processItems, hri, hout, hacc]
            | false =>
              refine ⟨⟨out.exports, ⟨it.url, it.name, b, r⟩ :: out.tasks,
                out.logs⟩, ?_⟩
              simp [processItems, hri, hout, hacc]
          · refine ⟨⟨out.exports, out.tasks, out.logs⟩, ?_⟩
            simp [processItems, hri, hout, hacc]
  · induction tasks with
    | nil => rfl
    | cons t ts ih =>
      simp only [runBatchR, ih, List.filterMap_cons]
      cases runTask t with
      | val v => rfl
      | exn e => rfl
  · simp [processItems, he]
  · simp [directLinkItems, hn]

/-- C1 witness: a batch whose single item resolves to nothing completes
normally, and a batch runner over one raising and one succeeding task
returns normally with one error line naming the failing task URL. -/
theorem c1_witness :
    (∃ out : LoopOut,
      processItems (fun _ => .val none) false true 10 [] [] false
          [{ url := "https://bunkr.sk/v/x" }]
        = .val out)
    ∧ runBatchR
        (fun t => if t.url = "https://cdn.bunkr.ru/bad.mp4"
          then .exn "OSError" else .val ())
        [⟨"https://cdn.bunkr.ru/bad.mp4", none, true, 3⟩,
         ⟨"https://cdn.bunkr.ru/good.mp4", none, true, 3⟩]
      = .val ["Error processing https://cdn.bunkr.ru/bad.mp4: OSError"] :=
  ⟨c1_failure_isolation.1 (fun _ => .val none) true 10 [] [] false
      [{ url := "https://bunkr.sk/v/x" }] (fun _ _ => rfl),
   c1_failure_isolation.2.1
      (fun t => if t.url = "https://cdn.bunkr.ru/bad.mp4"
        then .exn "OSError" else .val ())
      [⟨"https://cdn.bunkr.ru/bad.mp4", none, true, 3⟩,
       ⟨"https://cdn.bunkr.ru/good.mp4", none, true, 3⟩]⟩

/-- The splitext suffix is empty or starts with the dot it was cut at. -/
theorem splitextExt_empty_or_dot (name : String) :
    splitextExt name = "" ∨ (splitextExt name).data.head? = some '.' := by
  unfold splitextExt
  cases hf : rfindIdx '.' name.data with
  | none => exact Or.inl rfl
  | some i =>
    by_cases ha : (name.data.take i).any (fun c => c ≠ '.')
    · right
      simp only [ha, if_true]
      rw [headDropGet]
      exact rfindIdx_get '.' name.data i hf
    · left
      dsimp only
      rw [if_neg ha]

/-- C9: get_url_data returns the basename of the parsed URL path as
file_name and the splitext suffix of that basename (leading dot included)
as extension; the extension is therefore always empty or dot-initial, so
the allow-list comparison of process_url can never match a dotless entry
such as jpg. -/
theorem c9_get_url_data (url : String) :
    (get_url_data url).file_name = pathBasename (urlparsePath url)
    ∧ (get_url_data url).extension = splitextExt (get_url_data url).file_name
    ∧ ((get_url_data url).extension = ""
        ∨ (get_url_data url).extension.data.head? = some '.')
    ∧ (parseExtensions "jpg").contains (get_url_data url).extension = false
    ∧ (rfindIdx '.' (get_url_data url).file_name.data = none →
        (get_url_data url).extension = "") := by
  refine ⟨rfl, rfl, splitextExt_empty_or_dot _, ?_, ?_⟩
  have hd := splitextExt_empty_or_dot (pathBasename (urlparsePath url))
  have hne : (get_url_data url).extension ≠ "jpg" := by
    intro heq
    rcases hd with h | h
    · rw [show (get_url_data url).extension
          = splitextExt (pathBasename (urlparsePath url)) from rfl, h] at heq
      exact absurd heq (by decide)
    · rw [show splitextExt (pathBasename (urlparsePath url))
          = (get_url_data url).extension from rfl, heq] at h
      exact absurd h (by decide)
  have : ((get_url_data url).extension == "jpg") = false := by
    cases hb : (get_url_data url).extension == "jpg"
    · rfl
    · exact absurd (eq_of_beq hb) hne
  have hp : parseExtensions "jpg" = ["jpg"] := by rfl
  rw [hp]
  simp only [List.contains, List.elem]
  cases hb : (get_url_data url).extension == "jpg" with
  | false => rfl
  | true => exact absurd (eq_of_beq hb) hne
  intro hnd
  have hnd2 : rfindIdx '.' (pathBasename (urlparsePath url)).data = none := hnd
  show splitextExt (pathBasename (urlparsePath url)) = ""
  unfold splitextExt
  rw [hnd2]

/-- C9 witness: a URL ending in photo.jpg has file name photo.jpg and
extension .jpg, which the dotless allow-list entry jpg does not match. -/
theorem c9_witness :
    (get_url_data "https://host/dir/photo.jpg").extension = ".jpg"
      ∧ (parseExtensions "jpg").contains
          (get_url_data "https://host/dir/photo.jpg").extension = false
      ∧ (get_url_data "https://host/dir/photo").extension = "" :=
  ⟨by rfl, (c9_get_url_data "https://host/dir/photo.jpg").2.2.2.1,
   (c9_get_url_data "https://host/dir/photo").2.2.2.2 (by rfl)⟩
